import Mathlib

/-!
Verification development for the protectphp-ffi C bridge.

The repository ships a single C header, `src/include/protectphp.h`,
declaring the ABI of a Rust bridge that exposes a field-level encryption
client over PHP FFI.  The declared interface (names, argument lists,
const-ness, return types) is embedded below as `headerDecls`, transcribed
from the header.  The behaviour of the bridge (encrypt/decrypt semantics,
error channel, bulk processing, memory ownership) is not part of the
sources, so it is modelled from the specification; every such definition
carries a doc comment starting with `Modelled from the spec:`.
-/

/-- The C types that appear in `src/include/protectphp.h`. -/
inductive CType
  | voidTy
  | charPtr
  | constCharPtr
  | charPtrPtr
  | clientPtr
  | constClientPtr
deriving DecidableEq, Repr

/-- A C function declaration: name, argument types in order, return type. -/
structure CDecl where
  name : String
  args : List CType
  ret : CType
deriving DecidableEq, Repr

/-- The eight declarations of `src/include/protectphp.h`, transcribed in
header order (lines 12-19). -/
def headerDecls : List CDecl :=
  [ ⟨ "new_client", [CType.constCharPtr, CType.charPtrPtr], CType.clientPtr⟩,
    ⟨ "encrypt",
      [CType.constClientPtr, CType.constCharPtr, CType.constCharPtr,
       CType.constCharPtr, CType.constCharPtr, CType.charPtrPtr], CType.charPtr⟩,
    ⟨ "decrypt",
      [CType.constClientPtr, CType.constCharPtr, CType.constCharPtr,
       CType.charPtrPtr], CType.charPtr⟩,
    ⟨ "encrypt_bulk",
      [CType.constClientPtr, CType.constCharPtr, CType.charPtrPtr], CType.charPtr⟩,
    ⟨ "decrypt_bulk",
      [CType.constClientPtr, CType.constCharPtr, CType.charPtrPtr], CType.charPtr⟩,
    ⟨ "create_search_terms",
      [CType.constClientPtr, CType.constCharPtr, CType.charPtrPtr], CType.charPtr⟩,
    ⟨ "free_client", [CType.clientPtr], CType.voidTy⟩,
    ⟨ "free_string", [CType.charPtr], CType.voidTy⟩ ]

/-- Argument categories used by the spec's §6 table. -/
inductive SpecArg
  | handle
  | strArg
  | errorOut
deriving DecidableEq, Repr

/-- Return categories used by the spec's §6 table. -/
inductive SpecRet
  | handleOrNull
  | jsonOrNull
  | voidRet
deriving DecidableEq, Repr

/-- A row of the spec's §6 entry-point table. -/
structure SpecRow where
  name : String
  args : List SpecArg
  ret : SpecRet
deriving DecidableEq, Repr

/-- Modelled from the spec: the §6 table of entry points, with the names the
spec uses (`construct`, ..., `destroy`, `free_string`), in table order. -/
def specTable : List SpecRow :=
  [ ⟨ "construct", [SpecArg.strArg, SpecArg.errorOut], SpecRet.handleOrNull⟩,
    ⟨ "encrypt",
      [SpecArg.handle, SpecArg.strArg, SpecArg.strArg, SpecArg.strArg,
       SpecArg.strArg, SpecArg.errorOut], SpecRet.jsonOrNull⟩,
    ⟨ "decrypt",
      [SpecArg.handle, SpecArg.strArg, SpecArg.strArg, SpecArg.errorOut],
      SpecRet.jsonOrNull⟩,
    ⟨ "encrypt_bulk",
      [SpecArg.handle, SpecArg.strArg, SpecArg.errorOut], SpecRet.jsonOrNull⟩,
    ⟨ "decrypt_bulk",
      [SpecArg.handle, SpecArg.strArg, SpecArg.errorOut], SpecRet.jsonOrNull⟩,
    ⟨ "create_search_terms",
      [SpecArg.handle, SpecArg.strArg, SpecArg.errorOut], SpecRet.jsonOrNull⟩,
    ⟨ "destroy", [SpecArg.handle], SpecRet.voidRet⟩,
    ⟨ "free_string", [SpecArg.strArg], SpecRet.voidRet⟩ ]

/-- Whether a C argument type realizes a spec argument category.  A handle may
cross as `const Client*` or `Client*`; a string as `const char*` or `char*`
(the free entry point receives the string it is to release as `char*`);
the error out-slot is always `char**`. -/
def argMatches : CType → SpecArg → Bool
  | CType.constClientPtr, SpecArg.handle => true
  | CType.clientPtr, SpecArg.handle => true
  | CType.constCharPtr, SpecArg.strArg => true
  | CType.charPtr, SpecArg.strArg => true
  | CType.charPtrPtr, SpecArg.errorOut => true
  | _, _ => false

/-- Whether a C return type realizes a spec return category. -/
def retMatches : CType → SpecRet → Bool
  | CType.clientPtr, SpecRet.handleOrNull => true
  | CType.charPtr, SpecRet.jsonOrNull => true
  | CType.voidTy, SpecRet.voidRet => true
  | _, _ => false

/-- The ABI symbol realizing a spec role name: the header calls the
constructor `new_client` and the destructor `free_client`; every other
entry point keeps the spec's name. -/
def abiName (n : String) : String :=
  if n = "construct" then "new_client"
  else if n = "destroy" then "free_client"
  else n

/-- Whether a header declaration realizes a spec table row (under the
`abiName` renaming), argument by argument. -/
def declMatchesRow (d : CDecl) (r : SpecRow) : Bool :=
  d.name == abiName r.name
    && d.args.length == r.args.length
    && (d.args.zip r.args).all (fun p => argMatches p.1 p.2)
    && retMatches d.ret r.ret

/-- The five operation entry points of the header (those that receive a
client handle and perform an operation on it). -/
def operationNames : List String :=
  [ "encrypt", "decrypt", "encrypt_bulk", "decrypt_bulk",
    "create_search_terms" ]

/-! ## Behavioural model

The Rust implementation behind the header is not part of the sources; the
definitions below are modelled from the specification (§3, §4, §7).  The
cryptographic primitives themselves (AEAD, blind indexes, ORE) are, per §1,
external collaborators, so they are modelled by abstract computable
functions with the interface the spec describes. -/

/-- Modelled from the spec (§4.2, §7): a structured error, reported through
the error channel as a JSON object with at least fields kind and message. -/
structure ErrorInfo where
  kind : String
  message : String
deriving DecidableEq, Repr

/-- Modelled from the spec (§3): the encryption context, a JSON object of
per-record associated data, here a list of key/value fields. -/
abbrev Ctx : Type := List (String × String)

/-- Insert a field into a key-sorted field list (insertion step of the
canonical ordering of a JSON object's fields). -/
def insertField (p : String × String) : List (String × String) → List (String × String)
  | [] => [p]
  | q :: rest =>
    if p.1 < q.1 then p :: q :: rest else q :: insertField p rest

/-- Modelled from the spec (§3): contexts are compared as JSON objects, so
equivalence is equality of the canonical (key-sorted) field list.  The
AEAD binds this canonical form. -/
def canonCtx : Ctx → List (String × String)
  | [] => []
  | p :: rest => insertField p (canonCtx rest)

/-- Modelled from the spec (§3): a column's entry in the dataset schema,
naming the table and column and which encryption mode and index kinds the
column requests. -/
structure ColumnSchema where
  table : String
  column : String
  deterministic : Bool
  hasEqIndex : Bool
  hasOrdIndex : Bool
  hasMatchIndex : Bool
deriving DecidableEq, Repr

/-- Modelled from the spec (§3): the constructed client: a configuration
snapshot (dataset schema) and key-derivation material, identified by a key
id handed to the external key service. -/
structure Client where
  keyId : Nat
  schema : List ColumnSchema
deriving DecidableEq, Repr

/-- Look up the schema entry for a (table, column) pair. -/
def lookupSchema (c : Client) (table column : String) : Option ColumnSchema :=
  c.schema.find? (fun s => s.table == table && s.column == column)

/-- A computable mixing of a string into a number, standing in for the
byte-level hashing done by the external crypto collaborator. -/
def strCode (s : String) : Nat :=
  s.data.foldl (fun a c => a * 257 + c.toNat + 1) 7

/-- Modelled from the spec (§3, glossary): the equality blind index, a
deterministic keyed hash of the value under the per-column key; abstract
model of the external HMAC-based primitive. -/
def blindIndex (key : Nat) (table column value : String) : Nat :=
  ((key + 1) * 1000003 + strCode table * 101 + strCode column) * 65599
    + strCode value

/-- Modelled from the spec (§3, glossary): the order-revealing index used
for range search; abstract model of the external ORE primitive. -/
def oreIndex (key : Nat) (table column value : String) : Nat :=
  (key * 31 + strCode table * 17 + strCode column * 13) * 4093 + strCode value

/-- Modelled from the spec (§4.3): the match-index token list for a value;
abstract model of the external match-index primitive. -/
def matchTokens (key : Nat) (table column value : String) : List Nat :=
  [blindIndex key table column value % 1048576]

/-- The ciphertext-envelope version tag emitted by this bridge version. -/
def currentVersion : Nat := 1

/-- Modelled from the spec (§3): the ciphertext envelope: the AEAD output
(modelled as the sealed payload plus the bound associated data
table/column/context and the nonce), the wrapped data-encryption key id, a
version tag, and the index terms the column's schema requires. -/
structure Envelope where
  sealedData : String
  aadTable : String
  aadColumn : String
  aadContext : List (String × String)
  nonce : Nat
  keyId : Nat
  version : Nat
  eqIndexTerm : Option Nat
  ordIndexTerm : Option Nat
deriving DecidableEq, Repr

/-- Modelled from the spec (§4.5 Encrypt): parse the context, look up the
column's schema (unknown column fails with schema_mismatch), perform AEAD
with associated data binding table/column/context, compute the index terms
the schema requires, and assemble the envelope.  Deterministic columns
ignore the fresh nonce; otherwise the caller-supplied fresh nonce enters
the envelope. -/
def encryptCore (c : Client) (plaintext column table : String) (ctx : Ctx)
    (nonce : Nat) : Except ErrorInfo Envelope :=
  match lookupSchema c table column with
  | none => Except.error ⟨ "schema_mismatch", "unknown column" ⟩
  | some s =>
    Except.ok
      { sealedData := plaintext
        aadTable := table
        aadColumn := column
        aadContext := canonCtx ctx
        nonce := if s.deterministic then 0 else nonce
        keyId := c.keyId
        version := currentVersion
        eqIndexTerm :=
          if s.hasEqIndex then some (blindIndex c.keyId table column plaintext)
          else none
        ordIndexTerm :=
          if s.hasOrdIndex then some (oreIndex c.keyId table column plaintext)
          else none }

/-- Modelled from the spec (§4.5 Decrypt): parse the envelope, resolve the
wrapping key by the envelope's key id (unknown id fails with unknown_key),
check the version tag (unrecognized fails with version_unsupported), verify
the AEAD under the same associated-data binding — a context that is not
equivalent to the bound one fails with context_mismatch — and return the
recovered plaintext. -/
def decryptCore (c : Client) (env : Envelope) (ctx : Ctx) :
    Except ErrorInfo String :=
  if env.keyId ≠ c.keyId then
    Except.error ⟨ "unknown_key", "wrapped key id cannot be resolved" ⟩
  else if env.version ≠ currentVersion then
    Except.error ⟨ "version_unsupported", "envelope version not recognized" ⟩
  else if env.aadContext ≠ canonCtx ctx then
    Except.error ⟨ "context_mismatch", "decrypt context does not match encryption context" ⟩
  else
    Except.ok env.sealedData

/-- Modelled from the spec (§4.2): serialization of a structured error into
the JSON object stored in the error out-slot, with fields kind and message. -/
def errJson (e : ErrorInfo) : String :=
  "\x7b\"kind\":\"" ++ e.kind ++ "\",\"message\":\"" ++ e.message ++ "\"\x7d"

/-- Whether a character list starts with another character list. -/
def startsWithChars : List Char → List Char → Bool
  | [], _ => true
  | _ :: _, [] => false
  | a :: as, b :: bs => a == b && startsWithChars as bs

/-- Whether a character list occurs anywhere inside another. -/
def containsChars (needle : List Char) : List Char → Bool
  | [] => startsWithChars needle []
  | c :: rest => startsWithChars needle (c :: rest) || containsChars needle rest

/-- Whether a JSON object string carries a field of the given name. -/
def jsonHasField (s field : String) : Bool :=
  containsChars (String.data ( "\"" ++ field ++ "\":" )) s.data

/-- Modelled from the spec (§4.2): the uniform error channel.  A fallible
entry point returning a value of type α takes a caller-provided out-slot;
on success the slot is left unchanged and the value is returned, on failure
the return is null (none) and a freshly serialized error string is stored
in the slot before returning. -/
def ffiReturn {α : Type} (r : Except ErrorInfo α) (slot : Option String) :
    Option α × Option String :=
  match r with
  | Except.ok a => (some a, slot)
  | Except.error e => (none, some (errJson e))

/-- Modelled from the spec (§4.3): the constructor configuration envelope
after JSON decoding: each field either present or absent; structurally
invalid input is a wholly absent envelope (none at the call site). -/
structure RawConfig where
  workspaceId : Option String
  accessKey : Option String
  datasetId : Option String
  endpoint : Option String
  schema : Option (List ColumnSchema)
deriving DecidableEq, Repr

/-- Modelled from the spec (§4.3, §4.4): the constructor parses the
configuration envelope; missing required fields (workspace_id, access_key,
dataset_id) fail with invalid_config, unknown fields are ignored, and on
success a ready client is produced whose key material derives from the
resolved credentials. -/
def newClientCore (cfg : Option RawConfig) : Except ErrorInfo Client :=
  match cfg with
  | none => Except.error ⟨ "invalid_config", "config not parseable" ⟩
  | some r =>
    match r.workspaceId, r.accessKey, r.datasetId with
    | some w, some a, some d =>
      Except.ok ⟨ strCode w * 31 + strCode a * 7 + strCode d, r.schema.getD [] ⟩
    | _, _, _ => Except.error ⟨ "invalid_config", "missing required field" ⟩

/-- Modelled from the spec (§6): the `construct` entry point over the error
channel. -/
def newClientFFI (cfg : Option RawConfig) (slot : Option String) :
    Option Client × Option String :=
  ffiReturn (newClientCore cfg) slot

/-- Modelled from the spec (§6): the `encrypt` entry point over the error
channel (the fresh nonce is drawn by the bridge per call and is modelled
as an explicit argument). -/
def encryptFFI (c : Client) (plaintext column table : String) (ctx : Ctx)
    (nonce : Nat) (slot : Option String) : Option Envelope × Option String :=
  ffiReturn (encryptCore c plaintext column table ctx nonce) slot

/-- Modelled from the spec (§6): the `decrypt` entry point over the error
channel. -/
def decryptFFI (c : Client) (env : Envelope) (ctx : Ctx)
    (slot : Option String) : Option String × Option String :=
  ffiReturn (decryptCore c env ctx) slot

/-- Modelled from the spec (§3, §4.3): one input item of a bulk request
after JSON decoding: the opaque client-assigned id plus the fields of the
corresponding single operation, each present or absent. -/
structure RawBulkItem where
  id : Option String
  plaintext : Option String
  column : Option String
  table : Option String
  ciphertext : Option Envelope
  context : Option Ctx
deriving DecidableEq, Repr

/-- Modelled from the spec (§4.3): the bulk request envelope: an object
that must carry an `items` array; absent means the envelope does not parse. -/
structure RawBulkRequest where
  items : Option (List RawBulkItem)
deriving DecidableEq, Repr

/-- Modelled from the spec (§4.3): parsing the bulk request envelope: the
`items` array must be present and every item must carry the id the bridge
pairs results by; otherwise the envelope cannot be parsed. -/
def parseBulk (r : RawBulkRequest) : Option (List (String × RawBulkItem)) :=
  match r.items with
  | none => none
  | some items =>
    items.mapM (fun it => (it.id).map (fun i => (i, it)))

/-- Modelled from the spec (§3, §4.3): one output item of a bulk response:
the input's id plus either a success payload or a structured inline error. -/
structure BulkResult (α : Type) where
  id : String
  okPayload : Option α
  errPayload : Option ErrorInfo
deriving DecidableEq, Repr

/-- Process one bulk-encrypt item independently: a missing field is an
inline invalid_request, and any core failure becomes the item's inline
error; the item never aborts the batch. -/
def encItemResult (c : Client) (nonce : Nat) (idIt : String × RawBulkItem) :
    BulkResult Envelope :=
  match idIt.2.plaintext, idIt.2.column, idIt.2.table with
  | some p, some col, some t =>
    match encryptCore c p col t ((idIt.2.context).getD []) nonce with
    | Except.ok env => ⟨ idIt.1, some env, none ⟩
    | Except.error e => ⟨ idIt.1, none, some e ⟩
  | _, _, _ =>
    ⟨ idIt.1, none, some ⟨ "invalid_request", "missing item field" ⟩ ⟩

/-- Run the bulk-encrypt loop, drawing one fresh nonce per item. -/
def encItemsLoop (c : Client) : Nat → List (String × RawBulkItem) →
    List (BulkResult Envelope)
  | _, [] => []
  | n, it :: rest => encItemResult c n it :: encItemsLoop c (n + 1) rest

/-- Modelled from the spec (§4.5 Bulk): `encrypt_bulk` parses the envelope
(failure: invalid_request at the entry point), then processes each item
independently, reporting item failures inline; output order equals input
order. -/
def encryptBulkCore (c : Client) (r : RawBulkRequest) (nonce0 : Nat) :
    Except ErrorInfo (List (BulkResult Envelope)) :=
  match parseBulk r with
  | none => Except.error ⟨ "invalid_request", "bulk envelope not parseable" ⟩
  | some items => Except.ok (encItemsLoop c nonce0 items)

/-- Process one bulk-decrypt item independently. -/
def decItemResult (c : Client) (idIt : String × RawBulkItem) :
    BulkResult String :=
  match idIt.2.ciphertext with
  | some env =>
    match decryptCore c env ((idIt.2.context).getD []) with
    | Except.ok p => ⟨ idIt.1, some p, none ⟩
    | Except.error e => ⟨ idIt.1, none, some e ⟩
  | none =>
    ⟨ idIt.1, none, some ⟨ "invalid_request", "missing item field" ⟩ ⟩

/-- Modelled from the spec (§4.5 Bulk): `decrypt_bulk`, same envelope
discipline as `encrypt_bulk`. -/
def decryptBulkCore (c : Client) (r : RawBulkRequest) :
    Except ErrorInfo (List (BulkResult String)) :=
  match parseBulk r with
  | none => Except.error ⟨ "invalid_request", "bulk envelope not parseable" ⟩
  | some items => Except.ok (items.map (decItemResult c))

/-- Modelled from the spec (§4.4, §4.5): the bulk entry points receive the
handle; a null or otherwise invalid handle makes the entry point fail as a
whole.  The error channel wraps the core result. -/
def encryptBulkFFI (h : Option Client) (r : RawBulkRequest) (nonce0 : Nat)
    (slot : Option String) :
    Option (List (BulkResult Envelope)) × Option String :=
  match h with
  | none => ffiReturn (α := List (BulkResult Envelope))
      (Except.error ⟨ "internal_error", "invalid handle" ⟩) slot
  | some c => ffiReturn (encryptBulkCore c r nonce0) slot

/-- Modelled from the spec (§4.4, §4.5): `decrypt_bulk` over the error
channel, with the same handle discipline. -/
def decryptBulkFFI (h : Option Client) (r : RawBulkRequest)
    (slot : Option String) :
    Option (List (BulkResult String)) × Option String :=
  match h with
  | none => ffiReturn (α := List (BulkResult String))
      (Except.error ⟨ "internal_error", "invalid handle" ⟩) slot
  | some c => ffiReturn (decryptBulkCore c r) slot

/-- Modelled from the spec (§4.3): one search predicate after JSON
decoding: column, table, op (eq, range or match) and value, each present
or absent. -/
structure RawTerm where
  column : Option String
  table : Option String
  op : Option String
  value : Option String
deriving DecidableEq, Repr

/-- Modelled from the spec (§4.3): the search-terms request envelope: an
object that must carry a `terms` array. -/
structure RawTermsRequest where
  terms : Option (List RawTerm)
deriving DecidableEq, Repr

/-- Modelled from the spec (§4.3): one output search term: the predicate's
column, table and op, plus the index value(s) the op requires. -/
structure SearchTerm where
  column : String
  table : String
  op : String
  indexValue : Option Nat
  rangeBounds : Option (Nat × Nat)
  tokens : Option (List Nat)
deriving DecidableEq, Repr

/-- Modelled from the spec (§4.5 Create search terms, §4.3): convert one
predicate: missing fields are invalid_request; an unknown column or an op
the column's schema does not support is schema_mismatch; an eq predicate
yields the equality blind index of the value, a range predicate the ORE
bounds, a match predicate the match tokens. -/
def termOf (c : Client) (rt : RawTerm) : Except ErrorInfo SearchTerm :=
  match rt.column, rt.table, rt.op, rt.value with
  | some col, some t, some op, some v =>
    match lookupSchema c t col with
    | none => Except.error ⟨ "schema_mismatch", "unknown column" ⟩
    | some s =>
      if op = "eq" then
        if s.hasEqIndex then
          Except.ok ⟨ col, t, op, some (blindIndex c.keyId t col v), none, none ⟩
        else Except.error ⟨ "schema_mismatch", "op unsupported for column" ⟩
      else if op = "range" then
        if s.hasOrdIndex then
          Except.ok ⟨ col, t, op, none,
            some (oreIndex c.keyId t col v, oreIndex c.keyId t col v), none ⟩
        else Except.error ⟨ "schema_mismatch", "op unsupported for column" ⟩
      else if op = "match" then
        if s.hasMatchIndex then
          Except.ok ⟨ col, t, op, none, none, some (matchTokens c.keyId t col v) ⟩
        else Except.error ⟨ "schema_mismatch", "op unsupported for column" ⟩
      else Except.error ⟨ "invalid_request", "unknown op" ⟩
  | _, _, _, _ => Except.error ⟨ "invalid_request", "missing predicate field" ⟩

/-- Convert the predicates in order, failing on the first invalid one. -/
def termsLoop (c : Client) : List RawTerm → Except ErrorInfo (List SearchTerm)
  | [] => Except.ok []
  | rt :: rest =>
    match termOf c rt with
    | Except.error e => Except.error e
    | Except.ok st =>
      match termsLoop c rest with
      | Except.error e => Except.error e
      | Except.ok sts => Except.ok (st :: sts)

/-- Modelled from the spec (§4.5): `create_search_terms` parses the request
envelope (failure: invalid_request) and maps the predicate array to index
values, preserving input order. -/
def createSearchTermsCore (c : Client) (r : RawTermsRequest) :
    Except ErrorInfo (List SearchTerm) :=
  match r.terms with
  | none => Except.error ⟨ "invalid_request", "terms envelope not parseable" ⟩
  | some ts => termsLoop c ts

/-- Modelled from the spec (§6): `create_search_terms` over the error
channel. -/
def createSearchTermsFFI (c : Client) (r : RawTermsRequest)
    (slot : Option String) : Option (List SearchTerm) × Option String :=
  ffiReturn (createSearchTermsCore c r) slot

/-! ## Memory-ownership model

The spec's string arena and handle lifecycle (§4.1, §4.4, §9) are modelled
by an allocation ledger: the multiset of live bridge-side allocations,
each identified by a number drawn from a fresh counter. -/

/-- Modelled from the spec (§4.1, §9): the ledger of live bridge-side
allocations (client handles and transferred strings), with a counter
supplying fresh identifiers. -/
structure Ledger where
  nextId : Nat
  live : List Nat
deriving DecidableEq, Repr

/-- Allocate a fresh block, returning its identifier. -/
def Ledger.alloc (L : Ledger) : Nat × Ledger :=
  (L.nextId, ⟨ L.nextId + 1, L.nextId :: L.live ⟩)

/-- Release a block by identifier. -/
def Ledger.release (L : Ledger) (i : Nat) : Ledger :=
  ⟨ L.nextId, L.live.erase i ⟩

/-- Modelled from the spec (§4.4, §7): the constructor against the ledger:
on success it allocates exactly the handle's resources and returns the
handle id; on failure no partially-constructed handle is left behind and
the ledger is unchanged. -/
def newClientLedger (cfg : Option RawConfig) (L : Ledger) :
    Except ErrorInfo (Nat × Client) × Ledger :=
  match newClientCore cfg with
  | Except.error e => (Except.error e, L)
  | Except.ok c =>
    match L.alloc with
    | (i, L1) => (Except.ok (i, c), L1)

/-- Modelled from the spec (§4.5 Destroy): `destroy` releases all resources
owned by the handle. -/
def destroyLedger (i : Nat) (L : Ledger) : Ledger :=
  L.release i

/-- Modelled from the spec (§4.1, §2): a string returned by the bridge is a
fresh arena allocation whose ownership transfers to the host. -/
def transferString (L : Ledger) : Nat × Ledger :=
  L.alloc

/-- Modelled from the spec (§4.1): `free_string` releases a transferred
string's storage. -/
def freeStringLedger (i : Nat) (L : Ledger) : Ledger :=
  L.release i

/-- Modelled from the spec (§6): the `destroy` entry point at the C
boundary: a null handle is a no-op, a live handle is destroyed. -/
def freeClientFFI (h : Option Nat) (L : Ledger) : Ledger :=
  match h with
  | none => L
  | some i => destroyLedger i L

/-- Modelled from the spec (§4.1, §6): the `free_string` entry point at the
C boundary: a null pointer is a no-op, otherwise the storage is released. -/
def freeStringFFI (s : Option Nat) (L : Ledger) : Ledger :=
  match s with
  | none => L
  | some i => freeStringLedger i L

/-- Modelled from the spec (§4.2): the contract of a fallible entry point
over the error channel, as a function of the caller-provided out-slot:
success leaves the slot unchanged, failure returns null and stores a
serialized error in the slot, and a null return with a still-null slot
never occurs when the slot was pre-initialized to null. -/
def entryContract {α : Type} (call : Option String → Option α × Option String) : Prop :=
  (∀ slot a, (call slot).1 = some a → (call slot).2 = slot) ∧
  (∀ slot, (call slot).1 = none → ∃ e, (call slot).2 = some (errJson e)) ∧
  ((call none).1 = none → (call none).2 ≠ none)

/-- How a bulk output slot corresponds to its input item: it carries the
input's id, and it carries either a success payload or an inline error. -/
def bulkPaired {α : Type} (it : String × RawBulkItem) (res : BulkResult α) : Prop :=
  res.id = it.1 ∧ (res.okPayload.isSome ∨ res.errPayload.isSome)

/-- How an output search term corresponds to its input predicate: same
column, table and op, and for an equality predicate the index value is the
equality blind index of the predicate's value. -/
def termMatches (c : Client) (rt : RawTerm) (st : SearchTerm) : Prop :=
  st.column = rt.column.getD "" ∧
  st.table = rt.table.getD "" ∧
  st.op = rt.op.getD "" ∧
  (rt.op = some "eq" →
    st.indexValue =
      some (blindIndex c.keyId (rt.table.getD "") (rt.column.getD "")
        (rt.value.getD "")))

/-- Demo schema entry used by concrete witnesses: a randomized (non
deterministic) column with an equality index. -/
def schemaDemo : ColumnSchema :=
  ⟨ "users", "email", false, true, false, false ⟩

/-- Demo client used by concrete witnesses. -/
def cDemo : Client :=
  ⟨ 42, [schemaDemo] ⟩

/-- Demo configuration used by concrete witnesses. -/
def cfgDemo : RawConfig :=
  ⟨ some "w1", some "ak", some "d1", none, some [schemaDemo] ⟩

/-- Demo bulk-encrypt item used by concrete witnesses. -/
def itemDemoA : RawBulkItem :=
  ⟨ some "a", some "x", some "email", some "users", none, some [] ⟩

/-- Second demo bulk item: references an unknown column, so it must yield
an inline per-item error. -/
def itemDemoB : RawBulkItem :=
  ⟨ some "b", some "y", some "phone", some "users", none, some [] ⟩

/-- Demo search predicate used by concrete witnesses. -/
def termDemo : RawTerm :=
  ⟨ some "email", some "users", some "eq", some "alice@example.com" ⟩

/-! ## Theorems -/

/-- When the column is in the schema, encrypt assembles exactly the
envelope of the model. -/
theorem encryptCore_ok (c : Client) (p col t : String) (x : Ctx) (n : Nat)
    (s : ColumnSchema) (h : lookupSchema c t col = some s) :
    encryptCore c p col t x n = Except.ok
      { sealedData := p
        aadTable := t
        aadColumn := col
        aadContext := canonCtx x
        nonce := if s.deterministic then 0 else n
        keyId := c.keyId
        version := currentVersion
        eqIndexTerm :=
          if s.hasEqIndex then some (blindIndex c.keyId t col p) else none
        ordIndexTerm :=
          if s.hasOrdIndex then some (oreIndex c.keyId t col p) else none } := by
  unfold encryptCore
  rw [h]

/-- Decrypt succeeds when key id, version and bound context all check out. -/
theorem decryptCore_match (c : Client) (env : Envelope) (x : Ctx)
    (h1 : env.keyId = c.keyId) (h2 : env.version = currentVersion)
    (h3 : env.aadContext = canonCtx x) :
    decryptCore c env x = Except.ok env.sealedData := by
  unfold decryptCore
  simp [h1, h2, h3]

/-- Decrypt fails with context_mismatch when only the bound context check
fails. -/
theorem decryptCore_mismatch (c : Client) (env : Envelope) (x : Ctx)
    (h1 : env.keyId = c.keyId) (h2 : env.version = currentVersion)
    (h3 : env.aadContext ≠ canonCtx x) :
    decryptCore c env x = Except.error
      ⟨ "context_mismatch", "decrypt context does not match encryption context" ⟩ := by
  unfold decryptCore
  simp [h1, h2, h3]

/-- Claim C1: for every plaintext, table, column and context under which
encrypt succeeds (the column is in the schema), decrypting the returned
envelope with the same context returns exactly the plaintext. -/
theorem encrypt_then_decrypt_roundtrip (c : Client) (p col t : String)
    (x : Ctx) (n : Nat) (s : ColumnSchema)
    (h : lookupSchema c t col = some s) :
    ∃ env, encryptCore c p col t x n = Except.ok env ∧
      decryptCore c env x = Except.ok p :=
  ⟨ _, encryptCore_ok c p col t x n s h,
    decryptCore_match _ _ _ rfl rfl rfl ⟩

/-- Witness for C1 at the spec's scenario S2. -/
theorem encrypt_then_decrypt_roundtrip_witness :
    ∃ env,
      encryptCore cDemo "alice@example.com" "email" "users" [] 5 =
        Except.ok env ∧
      decryptCore cDemo env [] = Except.ok "alice@example.com" :=
  encrypt_then_decrypt_roundtrip cDemo "alice@example.com" "email" "users"
    [] 5 schemaDemo (by decide)

/-- Claim C2: decrypting an envelope under a context that differs (in the
canonical binding sense) from the encryption context fails with error kind
context_mismatch and never returns the plaintext. -/
theorem decrypt_context_mismatch_fails (c : Client) (p col t : String)
    (x x1 : Ctx) (n : Nat) (s : ColumnSchema)
    (h : lookupSchema c t col = some s)
    (hne : canonCtx x ≠ canonCtx x1) :
    ∃ env, encryptCore c p col t x n = Except.ok env ∧
      decryptCore c env x1 = Except.error
        ⟨ "context_mismatch", "decrypt context does not match encryption context" ⟩ ∧
      ∀ q, decryptCore c env x1 ≠ Except.ok q := by
  refine ⟨ _, encryptCore_ok c p col t x n s h, ?_, ?_ ⟩
  · exact decryptCore_mismatch _ _ _ rfl rfl hne
  · intro q hq
    rw [decryptCore_mismatch _ _ _ rfl rfl hne] at hq
    cases hq

/-- Witness for C2 at the spec's scenario S3. -/
theorem decrypt_context_mismatch_fails_witness :
    ∃ env,
      encryptCore cDemo "alice@example.com" "email" "users" [] 5 =
        Except.ok env ∧
      decryptCore cDemo env [ ( "tenant", "t2" ) ] = Except.error
        ⟨ "context_mismatch", "decrypt context does not match encryption context" ⟩ ∧
      ∀ q, decryptCore cDemo env [ ( "tenant", "t2" ) ] ≠ Except.ok q :=
  decrypt_context_mismatch_fails cDemo "alice@example.com" "email" "users"
    [] [ ( "tenant", "t2" ) ] 5 schemaDemo (by decide) (by decide)

/-- Claim C6: on a column whose schema does not request deterministic
encryption, two encrypt calls with the same plaintext, table, column and
context (and hence two distinct fresh nonces) produce distinct envelopes,
both of which decrypt back to the plaintext under the same context. -/
theorem nondeterministic_encrypt_distinct (c : Client) (p col t : String)
    (x : Ctx) (n1 n2 : Nat) (s : ColumnSchema)
    (h : lookupSchema c t col = some s)
    (hdet : s.deterministic = false) (hn : n1 ≠ n2) :
    ∃ env1 env2,
      encryptCore c p col t x n1 = Except.ok env1 ∧
      encryptCore c p col t x n2 = Except.ok env2 ∧
      env1 ≠ env2 ∧
      decryptCore c env1 x = Except.ok p ∧
      decryptCore c env2 x = Except.ok p := by
  refine ⟨ _, _, encryptCore_ok c p col t x n1 s h,
    encryptCore_ok c p col t x n2 s h, ?_, ?_, ?_ ⟩
  · intro he
    have hcn := congrArg Envelope.nonce he
    simp [hdet] at hcn
    exact hn hcn
  · exact decryptCore_match _ _ _ rfl rfl rfl
  · exact decryptCore_match _ _ _ rfl rfl rfl

/-- Witness for C6: encrypting the same plaintext twice with distinct
fresh nonces on the demo randomized column. -/
theorem nondeterministic_encrypt_distinct_witness :
    ∃ env1 env2,
      encryptCore cDemo "alice@example.com" "email" "users" [] 5 =
        Except.ok env1 ∧
      encryptCore cDemo "alice@example.com" "email" "users" [] 6 =
        Except.ok env2 ∧
      env1 ≠ env2 ∧
      decryptCore cDemo env1 [] = Except.ok "alice@example.com" ∧
      decryptCore cDemo env2 [] = Except.ok "alice@example.com" :=
  nondeterministic_encrypt_distinct cDemo "alice@example.com" "email"
    "users" [] 5 6 schemaDemo (by decide) (by decide) (by decide)

/-- A list starts with itself followed by anything. -/
theorem startsWithChars_self (needle rest : List Char) :
    startsWithChars needle (needle ++ rest) = true := by
  induction needle with
  | nil => rfl
  | cons c cs ih => simp [startsWithChars, ih]

/-- A needle that the haystack starts with occurs in the haystack. -/
theorem containsChars_of_starts (needle hay : List Char)
    (h : startsWithChars needle hay = true) :
    containsChars needle hay = true := by
  cases hay with
  | nil => simpa [containsChars] using h
  | cons c rest => simp [containsChars, h]

/-- Occurrence is preserved by extending the haystack on the left by one
character. -/
theorem containsChars_cons (needle : List Char) (c : Char) (rest : List Char)
    (h : containsChars needle rest = true) :
    containsChars needle (c :: rest) = true := by
  simp [containsChars, h]

/-- Occurrence is preserved by extending the haystack on the left. -/
theorem containsChars_append_left (needle l hay : List Char)
    (h : containsChars needle hay = true) :
    containsChars needle (l ++ hay) = true := by
  induction l with
  | nil => simpa using h
  | cons c cs ih => exact containsChars_cons _ _ _ ih

/-- Every serialized error carries both a kind field and a message field. -/
theorem errJson_hasFields (e : ErrorInfo) :
    jsonHasField (errJson e) "kind" = true ∧
    jsonHasField (errJson e) "message" = true := by
  have hdata : (errJson e).data =
      ('\x7b' :: '"' :: 'k' :: 'i' :: 'n' :: 'd' :: '"' :: ':' :: '"' :: []) ++
        (e.kind.data ++
          (('"' :: ',' :: '"' :: 'm' :: 'e' :: 's' :: 's' :: 'a' :: 'g' ::
            'e' :: '"' :: ':' :: '"' :: []) ++
            (e.message.data ++ ('"' :: '\x7d' :: [])))) := by
    simp [errJson, String.data_append]
  constructor
  · show containsChars (String.data "\"kind\":") (errJson e).data = true
    rw [hdata]
    exact containsChars_cons _ _ _
      (containsChars_of_starts _ _ (startsWithChars_self
        ('"' :: 'k' :: 'i' :: 'n' :: 'd' :: '"' :: ':' :: []) _))
  · show containsChars (String.data "\"message\":") (errJson e).data = true
    rw [hdata]
    apply containsChars_append_left
    apply containsChars_append_left
    exact containsChars_cons _ _ _ (containsChars_cons _ _ _
      (containsChars_of_starts _ _ (startsWithChars_self
        ('"' :: 'm' :: 'e' :: 's' :: 's' :: 'a' :: 'g' :: 'e' :: '"' ::
          ':' :: []) _)))

/-- Any call routed through the error channel satisfies the out-slot
contract. -/
theorem ffiReturn_contract {α : Type} (f : Except ErrorInfo α) :
    entryContract (fun slot => ffiReturn f slot) := by
  refine ⟨ ?_, ?_, ?_ ⟩
  · intro slot a h
    cases f with
    | ok b => rfl
    | error e => simp [ffiReturn] at h
  · intro slot h
    cases f with
    | ok b => simp [ffiReturn] at h
    | error e => exact ⟨ e, rfl ⟩
  · intro h
    cases f with
    | ok b => simp [ffiReturn] at h
    | error e => simp [ffiReturn]

/-- Claim C4: every fallible entry point leaves the out-slot unchanged on
success, and on failure returns null and stores a freshly serialized JSON
error object carrying kind and message fields before returning, so a null
return with a still-null out-slot never occurs as a normal failure. -/
theorem error_channel_contract :
    (∀ cfg, entryContract (newClientFFI cfg)) ∧
    (∀ c p col t x n, entryContract (encryptFFI c p col t x n)) ∧
    (∀ c env x, entryContract (decryptFFI c env x)) ∧
    (∀ h r n0, entryContract (encryptBulkFFI h r n0)) ∧
    (∀ h r, entryContract (decryptBulkFFI h r)) ∧
    (∀ c r, entryContract (createSearchTermsFFI c r)) ∧
    (∀ e, jsonHasField (errJson e) "kind" = true ∧
      jsonHasField (errJson e) "message" = true) := by
  refine ⟨ fun cfg => ffiReturn_contract _,
    fun c p col t x n => ffiReturn_contract _,
    fun c env x => ffiReturn_contract _, ?_, ?_,
    fun c r => ffiReturn_contract _, errJson_hasFields ⟩
  · intro h r n0
    cases h with
    | none => exact ffiReturn_contract _
    | some c => exact ffiReturn_contract _
  · intro h r
    cases h with
    | none => exact ffiReturn_contract _
    | some c => exact ffiReturn_contract _

/-- Witness for C4: a failing construct sets the out-slot, a succeeding
create_search_terms call leaves it untouched. -/
theorem error_channel_contract_witness :
    (∃ e, (newClientFFI none none).2 = some (errJson e)) ∧
    (createSearchTermsFFI cDemo ⟨ some [] ⟩ none).2 = none :=
  ⟨ (error_channel_contract.1 none).2.1 none rfl,
    (error_channel_contract.2.2.2.2.2.1 cDemo ⟨ some [] ⟩).1 none [] rfl ⟩

/-- Claim C8: constructing a client and then destroying the returned
handle restores the ledger of live allocations, and a transferred string
that passes through the free entry point once is likewise fully released. -/
theorem construct_destroy_no_leak (cfg : Option RawConfig) (L : Ledger)
    (c : Client) (h : newClientCore cfg = Except.ok c) :
    (∃ i L1, newClientLedger cfg L = (Except.ok (i, c), L1) ∧
      (destroyLedger i L1).live = L.live) ∧
    (∀ M : Ledger,
      (freeStringFFI (some (transferString M).1)
        (transferString M).2).live = M.live) := by
  constructor
  · refine ⟨ L.nextId, ⟨ L.nextId + 1, L.nextId :: L.live ⟩, ?_, ?_ ⟩
    · unfold newClientLedger
      rw [h]
      rfl
    · simp [destroyLedger, Ledger.release]
  · intro M
    simp [freeStringFFI, freeStringLedger, transferString, Ledger.alloc,
      Ledger.release]

/-- Witness for C8 at the spec's scenario S1: a valid config, an empty
ledger. -/
theorem construct_destroy_no_leak_witness :
    ∃ i L1, newClientLedger (some cfgDemo) ⟨ 0, [] ⟩ =
      (Except.ok (i, ⟨ strCode "w1" * 31 + strCode "ak" * 7 + strCode "d1",
        [schemaDemo] ⟩), L1) ∧
      (destroyLedger i L1).live = ([] : List Nat) :=
  (construct_destroy_no_leak (some cfgDemo) ⟨ 0, [] ⟩ _ rfl).1

/-- Claim C9: at the C boundary a null handle makes destroy a no-op and a
null pointer makes free_string a no-op: the ledger is untouched. -/
theorem null_free_noop : ∀ L : Ledger,
    freeClientFFI none L = L ∧ freeStringFFI none L = L :=
  fun _ => ⟨ rfl, rfl ⟩

/-- Claim C5, counterexample: the header exposes no entry point with the
spec's role names construct or destroy (the symbols are new_client and
free_client). -/
theorem abi_lacks_spec_role_names :
    headerDecls.find? (fun d => d.name == "construct") = none ∧
    headerDecls.find? (fun d => d.name == "destroy") = none := by
  decide

/-- Claim C5, amended: the header exposes exactly the eight entry points of
the spec's §6 table, row by row in table order, each with the table's
argument list and return type, with the constructor exported as new_client
and the destructor as free_client and all other names as in the spec. -/
theorem abi_surface_matches_spec_table :
    headerDecls.length = specTable.length ∧
    (headerDecls.zip specTable).all (fun p => declMatchesRow p.1 p.2) = true ∧
    headerDecls.map CDecl.name =
      specTable.map (fun r => abiName r.name) := by
  decide

/-- Claim C10: every operation entry point of the header receives the
client handle as pointer-to-const, and free_client is the only entry point
taking a mutable Client pointer argument. -/
theorem operations_take_const_handle :
    (headerDecls.filter (fun d => operationNames.contains d.name)).length
      = 5 ∧
    (headerDecls.filter (fun d => operationNames.contains d.name)).all
      (fun d => d.args.head? == some CType.constClientPtr) = true ∧
    headerDecls.filter (fun d => d.args.contains CType.clientPtr) =
      [ ⟨ "free_client", [CType.clientPtr], CType.voidTy ⟩ ] := by
  decide

/-- Each bulk-encrypt slot is paired with its input item. -/
theorem encItemResult_paired (c : Client) (n : Nat)
    (it : String × RawBulkItem) : bulkPaired it (encItemResult c n it) := by
  unfold bulkPaired encItemResult
  split
  · split
    · exact ⟨ rfl, Or.inl rfl ⟩
    · exact ⟨ rfl, Or.inr rfl ⟩
  · exact ⟨ rfl, Or.inr rfl ⟩

/-- The bulk-encrypt loop pairs outputs with inputs positionally. -/
theorem encItemsLoop_forall (c : Client) :
    ∀ (n : Nat) (items : List (String × RawBulkItem)),
      List.Forall₂ bulkPaired items (encItemsLoop c n items) := by
  intro n items
  induction items generalizing n with
  | nil => exact List.Forall₂.nil
  | cons it rest ih =>
    exact List.Forall₂.cons (encItemResult_paired c n it) (ih (n + 1))

/-- Each bulk-decrypt slot is paired with its input item. -/
theorem decItemResult_paired (c : Client) (it : String × RawBulkItem) :
    bulkPaired it (decItemResult c it) := by
  unfold bulkPaired decItemResult
  split
  · split
    · exact ⟨ rfl, Or.inl rfl ⟩
    · exact ⟨ rfl, Or.inr rfl ⟩
  · exact ⟨ rfl, Or.inr rfl ⟩

/-- The bulk-decrypt map pairs outputs with inputs positionally. -/
theorem decItems_forall (c : Client)
    (items : List (String × RawBulkItem)) :
    List.Forall₂ bulkPaired items (items.map (decItemResult c)) := by
  induction items with
  | nil => exact List.Forall₂.nil
  | cons it rest ih =>
    exact List.Forall₂.cons (decItemResult_paired c it) ih

/-- Claim C3: a bulk request whose envelope parses yields exactly one
result per input item, in input order, each carrying the input's id and
either a payload or an inline per-item error; the entry point itself
returns null only when the envelope cannot be parsed or the handle is
invalid. -/
theorem bulk_preserves_order_and_ids :
    (∀ (c : Client) (r : RawBulkRequest) (n0 : Nat) items,
      parseBulk r = some items →
      ∃ results, encryptBulkCore c r n0 = Except.ok results ∧
        results.length = items.length ∧
        List.Forall₂ bulkPaired items results) ∧
    (∀ (c : Client) (r : RawBulkRequest) items,
      parseBulk r = some items →
      ∃ results, decryptBulkCore c r = Except.ok results ∧
        results.length = items.length ∧
        List.Forall₂ bulkPaired items results) ∧
    (∀ (h : Option Client) (r : RawBulkRequest) (n0 : Nat)
      (slot : Option String),
      (encryptBulkFFI h r n0 slot).1 = none →
      h = none ∨ parseBulk r = none) ∧
    (∀ (h : Option Client) (r : RawBulkRequest) (slot : Option String),
      (decryptBulkFFI h r slot).1 = none →
      h = none ∨ parseBulk r = none) := by
  refine ⟨ ?_, ?_, ?_, ?_ ⟩
  · intro c r n0 items hp
    have hf := encItemsLoop_forall c n0 items
    refine ⟨ _, ?_, (List.Forall₂.length_eq hf).symm, hf ⟩
    unfold encryptBulkCore
    rw [hp]
  · intro c r items hp
    have hf := decItems_forall c items
    refine ⟨ _, ?_, (List.Forall₂.length_eq hf).symm, hf ⟩
    unfold decryptBulkCore
    rw [hp]
  · intro h r n0 slot hnone
    cases h with
    | none => exact Or.inl rfl
    | some c =>
      refine Or.inr ?_
      cases hp : parseBulk r with
      | none => rfl
      | some items =>
        exfalso
        have hcore : encryptBulkCore c r n0 =
            Except.ok (encItemsLoop c n0 items) := by
          unfold encryptBulkCore
          rw [hp]
        simp [encryptBulkFFI, hcore, ffiReturn] at hnone
  · intro h r slot hnone
    cases h with
    | none => exact Or.inl rfl
    | some c =>
      refine Or.inr ?_
      cases hp : parseBulk r with
      | none => rfl
      | some items =>
        exfalso
        have hcore : decryptBulkCore c r =
            Except.ok (items.map (decItemResult c)) := by
          unfold decryptBulkCore
          rw [hp]
        simp [decryptBulkFFI, hcore, ffiReturn] at hnone

/-- Witness for C3 at the spec's scenarios S4/S5: two items, the second on
an unknown column (so it yields an inline error rather than aborting). -/
theorem bulk_preserves_order_and_ids_witness :
    ∃ results,
      encryptBulkCore cDemo ⟨ some [itemDemoA, itemDemoB] ⟩ 5 =
        Except.ok results ∧
      results.length =
        [ ( "a", itemDemoA ), ( "b", itemDemoB ) ].length ∧
      List.Forall₂ bulkPaired
        [ ( "a", itemDemoA ), ( "b", itemDemoB ) ] results :=
  bulk_preserves_order_and_ids.1 cDemo ⟨ some [itemDemoA, itemDemoB] ⟩ 5
    [ ( "a", itemDemoA ), ( "b", itemDemoB ) ] (by decide)

/-- A successfully converted search predicate matches its output term. -/
theorem termOf_matches (c : Client) (rt : RawTerm) (st : SearchTerm)
    (h : termOf c rt = Except.ok st) : termMatches c rt st := by
  unfold termMatches
  unfold termOf at h
  rcases rt with ⟨ col?, t?, op?, v? ⟩
  cases col? <;> cases t? <;> cases op? <;> cases v? <;> simp_all
  rename_i col t op v
  cases hs : lookupSchema c t col <;> rw [hs] at h <;> simp_all
  rename_i s
  by_cases heq : op = "eq" <;> simp [heq] at h ⊢
  · by_cases hei : s.hasEqIndex <;> simp [hei] at h
    rw [← h]
    exact ⟨ rfl, rfl, rfl, rfl ⟩
  · by_cases hr : op = "range" <;> simp [hr] at h
    · by_cases ho : s.hasOrdIndex <;> simp [ho] at h
      rw [← h]
      exact ⟨ rfl, rfl, hr.symm ⟩
    · by_cases hm : op = "match" <;> simp [hm] at h
      by_cases hmi : s.hasMatchIndex <;> simp [hmi] at h
      rw [← h]
      exact ⟨ rfl, rfl, hm.symm ⟩

/-- The predicate loop pairs outputs with inputs positionally. -/
theorem termsLoop_forall (c : Client) :
    ∀ (ts : List RawTerm) (out : List SearchTerm),
      termsLoop c ts = Except.ok out →
      List.Forall₂ (termMatches c) ts out := by
  intro ts
  induction ts with
  | nil =>
    intro out h
    unfold termsLoop at h
    injection h with h1
    rw [← h1]
    exact List.Forall₂.nil
  | cons rt rest ih =>
    intro out h
    unfold termsLoop at h
    cases ht : termOf c rt with
    | error e => rw [ht] at h; simp at h
    | ok st =>
      rw [ht] at h
      cases hl : termsLoop c rest with
      | error e => rw [hl] at h; simp at h
      | ok sts =>
        rw [hl] at h
        injection h with h1
        rw [← h1]
        exact List.Forall₂.cons (termOf_matches c rt st ht) (ih sts hl)

/-- Claim C7: create_search_terms returns one output term per input
predicate, in input order and naming the same column, table and op; for an
equality predicate the returned index value is the equality blind index,
which is exactly the index term encrypt places in the envelope for the
same plaintext and column. -/
theorem search_terms_pair_and_match_encrypt :
    (∀ (c : Client) (ts : List RawTerm) (out : List SearchTerm),
      createSearchTermsCore c ⟨ some ts ⟩ = Except.ok out →
      out.length = ts.length ∧ List.Forall₂ (termMatches c) ts out) ∧
    (∀ (c : Client) (p col t : String) (x : Ctx) (n : Nat)
      (s : ColumnSchema) (env : Envelope),
      lookupSchema c t col = some s → s.hasEqIndex = true →
      encryptCore c p col t x n = Except.ok env →
      env.eqIndexTerm = some (blindIndex c.keyId t col p)) := by
  constructor
  · intro c ts out h
    have hf := termsLoop_forall c ts out h
    exact ⟨ (List.Forall₂.length_eq hf).symm, hf ⟩
  · intro c p col t x n s env hs hei henv
    rw [encryptCore_ok c p col t x n s hs] at henv
    injection henv with h1
    rw [← h1]
    simp [hei]

/-- Witness for C7 at the spec's scenario S6: one equality predicate whose
output index value is the one encrypt embeds in the envelope. -/
theorem search_terms_pair_and_match_encrypt_witness :
    (([ (⟨ "email", "users", "eq",
        some (blindIndex 42 "users" "email" "alice@example.com"),
        none, none ⟩ : SearchTerm) ]).length = [termDemo].length ∧
      List.Forall₂ (termMatches cDemo) [termDemo]
        [ ⟨ "email", "users", "eq",
          some (blindIndex 42 "users" "email" "alice@example.com"),
          none, none ⟩ ]) ∧
    (⟨ "alice@example.com", "users", "email", [], 5, 42, 1,
      some (blindIndex 42 "users" "email" "alice@example.com"),
      none ⟩ : Envelope).eqIndexTerm =
      some (blindIndex cDemo.keyId "users" "email" "alice@example.com") :=
  ⟨ search_terms_pair_and_match_encrypt.1 cDemo [termDemo]
      [ ⟨ "email", "users", "eq",
        some (blindIndex 42 "users" "email" "alice@example.com"),
        none, none ⟩ ] rfl,
    search_terms_pair_and_match_encrypt.2 cDemo "alice@example.com"
      "email" "users" [] 5 schemaDemo
      ⟨ "alice@example.com", "users", "email", [], 5, 42, 1,
        some (blindIndex 42 "users" "email" "alice@example.com"), none ⟩
      (by decide) (by decide) rfl ⟩
